import Mathlib

/-
Verification of the Massachusetts Open Checkbook vendor-analysis pipeline.

Shallow embedding of the data-cleaning and aggregation core shared by
src/eda_analysis.py, src/dashboard.py and src/generate_report.py.

Spreadsheet cells are modelled as strings, exact rationals, or empty (NaN);
pandas DataFrames are lists of rows.  Rationals stand in for floats (every
source value is a finite decimal, so the arithmetic here is exact).
Fallible loads return Except LoadError.
-/

/-- A spreadsheet cell as pandas sees it: a string, a number, or NaN. -/
inductive CellValue where
  | str (s : String)
  | num (q : ℚ)
  | empty
deriving DecidableEq

/-- One worksheet: its tab name, its column count, and its data rows
(the rows pandas hands back after any header consumption; each cell is
read positionally, missing trailing cells read as NaN). -/
structure Sheet where
  name : String
  ncols : Nat
  rows : List (List CellValue)
deriving DecidableEq

/-- A workbook is its ordered list of sheets. -/
abbrev Workbook := List Sheet

/-- The failure taxonomy of the loaders (the spec calls all of these
LoadError): the workbook cannot be opened; assigning the 7 fixed column
names fails because a retained sheet has fewer than 7 columns; pandas
concat of an empty frame list fails; positional column extraction is out
of range. -/
inductive LoadError where
  | cannotOpen
  | badSheet (name : String)
  | emptyConcat
  | columnOutOfRange (name : String) (idx : Nat)
deriving DecidableEq

/-- Whether an Except value is an error. -/
def isLoadErr {α : Type} : Except LoadError α → Bool
  | .error _ => true
  | .ok _ => false

/-- Positional cell access; pandas pads short rows with NaN. -/
def getCell (row : List CellValue) (i : Nat) : CellValue :=
  row.getD i CellValue.empty

/-- Python str(x) of a cell: strings unchanged, NaN prints as the literal
text nan.  Numeric cells render via the rational printer (the exact digits
differ from Python float printing; no claim reads a numeric company cell). -/
def cellToStr : CellValue → String
  | .str s => s
  | .num q => toString q
  | .empty => "nan"

/-- Python str.lower, over the ASCII range used by the keyword lists. -/
def lowerStr (s : String) : String := String.mk (s.toList.map Char.toLower)

/-- The whitespace characters Python str.strip removes (the ones that
occur in the source data). -/
def isWsCh (c : Char) : Bool := c == ' ' || c == '\t' || c == '\n' || c == '\r'

/-- Strip surrounding whitespace from a character list. -/
def trimWs (cs : List Char) : List Char :=
  ((cs.dropWhile isWsCh).reverse.dropWhile isWsCh).reverse

/-- Python str.strip. -/
def trimStr (s : String) : String := String.mk (trimWs s.toList)

/-- Whether the second list starts with the first. -/
def leadMatch : List Char → List Char → Bool
  | [], _ => true
  | _ :: _, [] => false
  | a :: as, b :: bs => a == b && leadMatch as bs

/-- Whether the needle occurs as a contiguous run of the haystack. -/
def subMatch (needle : List Char) : List Char → Bool
  | [] => needle.isEmpty
  | c :: rest => leadMatch needle (c :: rest) || subMatch needle rest

/-- The Python test needle in hay (substring containment). -/
def containsSub (hay needle : String) : Bool :=
  subMatch needle.toList hay.toList

/-- The field cleanup applied to contract code, contact name and company:
replace embedded newlines by spaces, then strip surrounding whitespace. -/
def cleanField (s : String) : String :=
  trimStr (String.mk (s.toList.map fun c => if c == '\n' then ' ' else c))

/-- Digit test on a character, by code point. -/
def isDigitCh (c : Char) : Bool := 48 ≤ c.toNat && c.toNat ≤ 57

/-- Value of a digit run, most significant first. -/
def natOfDigits (cs : List Char) : Nat :=
  cs.foldl (fun a c => a * 10 + (c.toNat - 48)) 0

/-- Split a character list into its leading digit run and the remainder. -/
def splitDigits : List Char → List Char × List Char
  | [] => ([], [])
  | c :: cs =>
    if isDigitCh c then
      let p := splitDigits cs
      (c :: p.1, p.2)
    else ([], c :: cs)

/-- Consume an optional leading sign; true means negative. -/
def parseSign : List Char → Bool × List Char
  | '-' :: cs => (true, cs)
  | '+' :: cs => (false, cs)
  | cs => (false, cs)

/-- Parse the optional exponent suffix: empty input means exponent 0;
otherwise an e or E, an optional sign and a nonempty digit run consuming
the whole remainder.  Returns (negative?, magnitude). -/
def parseExpSuffix : List Char → Option (Bool × Nat)
  | [] => some (false, 0)
  | c :: cs =>
    if c == 'e' || c == 'E' then
      let s := parseSign cs
      let d := splitDigits s.2
      if d.1.isEmpty || !d.2.isEmpty then none
      else some (s.1, natOfDigits d.1)
    else none

/-- Decimal numeral parser modelling the string branch of
pandas.to_numeric with errors equal to coerce: optional sign, digits with
at most one point (at least one digit overall), optional exponent.  Any
other shape coerces to none rather than raising.  Special float literals
(inf, nan) are outside the modelled domain; source cells are decimals. -/
def parseDecimal (cs : List Char) : Option ℚ :=
  let s := parseSign cs
  let ip := splitDigits s.2
  let fpRest : List Char × List Char :=
    match ip.2 with
    | '.' :: t => splitDigits t
    | _ => ([], ip.2)
  if ip.1.isEmpty && fpRest.1.isEmpty then none
  else
    match parseExpSuffix fpRest.2 with
    | none => none
    | some e =>
      let mantissa : ℚ :=
        (natOfDigits ip.1 : ℚ) + (natOfDigits fpRest.1 : ℚ) / (10 : ℚ) ^ fpRest.1.length
      let scaled : ℚ :=
        if e.1 then mantissa / (10 : ℚ) ^ e.2 else mantissa * (10 : ℚ) ^ e.2
      some (if s.1 then -scaled else scaled)

/-- pd.to_numeric on a text cell: strip whitespace, then parse. -/
def toNumericStr (s : String) : Option ℚ := parseDecimal (trimWs s.toList)

/-- pd.to_numeric with errors equal to coerce on a cell: numbers pass
through, NaN coerces to none, text is parsed. -/
def toNumeric : CellValue → Option ℚ
  | .num q => some q
  | .empty => none
  | .str s => toNumericStr s

/-
Vendor Table Loader — src/eda_analysis.py load_vendor_data (lines 95-137).
-/

/-- One cleaned vendor row.  The Role, Email and Phone columns are never
string-cleaned by the source, so they stay raw cells. -/
structure VendorRecord where
  contractCode : String
  contactName : String
  company : String
  role : CellValue
  email : CellValue
  phone : CellValue
  sdo : Option ℚ
  category : String
deriving DecidableEq

/-- SKIP_SHEETS of eda_analysis.py. -/
def skipSheets : List String := ["Abbreviations "]

/-- The sheets the loader keeps: sheet.strip() not in the stripped
skip-list. -/
def retainedSheets (wb : Workbook) : List Sheet :=
  wb.filter fun s => !((skipSheets.map trimStr).contains (trimStr s.name))

/-- metadata_keywords of eda_analysis.py load_vendor_data. -/
def metadataKeywords : List String :=
  ["Master Contract", "Solicitation Enabled", "Master MBPO",
   "Bid and Contract", "Category and Vendor", "Category Development",
   "Mass Gov", "OSD Help Desk", "N/A"]

/-- The row-drop test: any keyword, lowercased, occurs in the lowercased
company cell text. -/
def companyMatchesKw (x : String) : Bool :=
  metadataKeywords.any fun kw => containsSub (lowerStr x) (lowerStr kw)

/-- The mask kept by the source: rows whose raw company text matches no
keyword (the match is checked before any newline collapse or trim). -/
def keepRowE (row : List CellValue) : Bool :=
  !companyMatchesKw (cellToStr (getCell row 2))

/-- Build one VendorRecord from a kept row of a sheet whose (trimmed)
name is cat: coerce the commitment, clean the three string fields. -/
def mkVendorRecord (cat : String) (row : List CellValue) : VendorRecord :=
  { contractCode := cleanField (cellToStr (getCell row 0))
    contactName := cleanField (cellToStr (getCell row 1))
    company := cleanField (cellToStr (getCell row 2))
    role := getCell row 3
    email := getCell row 4
    phone := getCell row 5
    sdo := toNumeric (getCell row 6)
    category := cat }

/-- One sheet of the vendor workbook: assigning the 7 fixed column names
fails when the sheet has fewer than 7 columns; otherwise filter the
metadata rows and build records in row order. -/
def processVendorSheet (s : Sheet) : Except LoadError (List VendorRecord) :=
  if s.ncols < 7 then .error (.badSheet s.name)
  else .ok ((s.rows.filter keepRowE).map (mkVendorRecord (trimStr s.name)))

/-- The per-sheet loop: the first failing sheet aborts the load. -/
def loadVendorFrames : List Sheet → Except LoadError (List (List VendorRecord))
  | [] => .ok []
  | s :: rest =>
    match processVendorSheet s with
    | .error e => .error e
    | .ok f =>
      match loadVendorFrames rest with
      | .error e => .error e
      | .ok fs => .ok (f :: fs)

/-- load_vendor_data of eda_analysis.py: none models a workbook that
cannot be opened; pd.concat raises when the frame list is empty, which
happens exactly when no sheet is retained. -/
def loadVendorData (wb? : Option Workbook) : Except LoadError (List VendorRecord) :=
  match wb? with
  | none => .error .cannotOpen
  | some wb =>
    match loadVendorFrames (retainedSheets wb) with
    | .error e => .error e
    | .ok [] => .error .emptyConcat
    | .ok fs => .ok fs.flatten

/-
Vendor Table Loader — src/dashboard.py load_vendor_data (lines 70-94).
Identical pipeline except for a derived Category_Label column.
-/

/-- CATEGORY_NAMES, the fixed 15-entry code-to-label dictionary. -/
def categoryNames : List (String × String) :=
  [("ITE", "IT Equipment & Services"),
   ("ITS", "IT Software & Services"),
   ("ITT", "Telecom & Networking"),
   ("FAC", "Facilities General"),
   ("VEH", "Vehicle Acquisition & Maint."),
   ("GRO", "Food & Food Service"),
   ("LND", "Facility Landscaping"),
   ("MED", "Health & Medical"),
   ("MRO", "Maintenance, Repair & Ops"),
   ("OFF", "Office Supplies"),
   ("PRF", "Professional Services"),
   ("PSE", "Public Safety & Security"),
   ("SFC", "Sustainable Facilities"),
   ("TRD", "Tradespersons"),
   ("WMR", "Waste Mgmt & Recycling")]

/-- A dashboard vendor row: the common eight fields plus the mapped
label (none when the category code is not in the dictionary). -/
structure DVendorRecord where
  base : VendorRecord
  categoryLabel : Option String
deriving DecidableEq

/-- SKIP_SHEETS of dashboard.py. -/
def dashSkipSheets : List String := ["Abbreviations "]

/-- Retained sheets, dashboard variant. -/
def dashRetainedSheets (wb : Workbook) : List Sheet :=
  wb.filter fun s => !((dashSkipSheets.map trimStr).contains (trimStr s.name))

/-- metadata_kw of dashboard.py load_vendor_data. -/
def dashMetadataKw : List String :=
  ["Master Contract", "Solicitation Enabled", "Master MBPO",
   "Bid and Contract", "Category and Vendor", "Category Development",
   "Mass Gov", "OSD Help Desk", "N/A"]

/-- The dashboard mask; str(x).lower() agrees with astype(str) then
lower(), so the body matches the EDA one. -/
def keepRowD (row : List CellValue) : Bool :=
  !(dashMetadataKw.any fun kw =>
    containsSub (lowerStr (cellToStr (getCell row 2))) (lowerStr kw))

/-- Build one dashboard record; the label is looked up from the trimmed
sheet name. -/
def mkDVendorRecord (cat : String) (row : List CellValue) : DVendorRecord :=
  { base :=
      { contractCode := cleanField (cellToStr (getCell row 0))
        contactName := cleanField (cellToStr (getCell row 1))
        company := cleanField (cellToStr (getCell row 2))
        role := getCell row 3
        email := getCell row 4
        phone := getCell row 5
        sdo := toNumeric (getCell row 6)
        category := cat }
    categoryLabel := categoryNames.lookup cat }

/-- One sheet, dashboard variant. -/
def dashProcessVendorSheet (s : Sheet) : Except LoadError (List DVendorRecord) :=
  if s.ncols < 7 then .error (.badSheet s.name)
  else .ok ((s.rows.filter keepRowD).map (mkDVendorRecord (trimStr s.name)))

/-- The per-sheet loop, dashboard variant. -/
def dashLoadVendorFrames : List Sheet → Except LoadError (List (List DVendorRecord))
  | [] => .ok []
  | s :: rest =>
    match dashProcessVendorSheet s with
    | .error e => .error e
    | .ok f =>
      match dashLoadVendorFrames rest with
      | .error e => .error e
      | .ok fs => .ok (f :: fs)

/-- load_vendor_data of dashboard.py. -/
def dashLoadVendorData (wb? : Option Workbook) : Except LoadError (List DVendorRecord) :=
  match wb? with
  | none => .error .cannotOpen
  | some wb =>
    match dashLoadVendorFrames (dashRetainedSheets wb) with
    | .error e => .error e
    | .ok [] => .error .emptyConcat
    | .ok fs => .ok fs.flatten

/-
Vendor Table Loader — src/generate_report.py load_vendor_data (lines 62-82).
Same pipeline as the EDA variant (the commitment column name differs only
textually).
-/

/-- SKIP_SHEETS of generate_report.py. -/
def reportSkipSheets : List String := ["Abbreviations "]

/-- Retained sheets, report variant. -/
def reportRetainedSheets (wb : Workbook) : List Sheet :=
  wb.filter fun s => !((reportSkipSheets.map trimStr).contains (trimStr s.name))

/-- metadata_kw of generate_report.py load_vendor_data. -/
def reportMetadataKw : List String :=
  ["Master Contract", "Solicitation Enabled", "Master MBPO",
   "Bid and Contract", "Category and Vendor", "Category Development",
   "Mass Gov", "OSD Help Desk", "N/A"]

/-- The report mask. -/
def keepRowR (row : List CellValue) : Bool :=
  !(reportMetadataKw.any fun kw =>
    containsSub (lowerStr (cellToStr (getCell row 2))) (lowerStr kw))

/-- Build one report record. -/
def mkReportVendorRecord (cat : String) (row : List CellValue) : VendorRecord :=
  { contractCode := cleanField (cellToStr (getCell row 0))
    contactName := cleanField (cellToStr (getCell row 1))
    company := cleanField (cellToStr (getCell row 2))
    role := getCell row 3
    email := getCell row 4
    phone := getCell row 5
    sdo := toNumeric (getCell row 6)
    category := cat }

/-- One sheet, report variant. -/
def reportProcessVendorSheet (s : Sheet) : Except LoadError (List VendorRecord) :=
  if s.ncols < 7 then .error (.badSheet s.name)
  else .ok ((s.rows.filter keepRowR).map (mkReportVendorRecord (trimStr s.name)))

/-- The per-sheet loop, report variant. -/
def reportLoadVendorFrames : List Sheet → Except LoadError (List (List VendorRecord))
  | [] => .ok []
  | s :: rest =>
    match reportProcessVendorSheet s with
    | .error e => .error e
    | .ok f =>
      match reportLoadVendorFrames rest with
      | .error e => .error e
      | .ok fs => .ok (f :: fs)

/-- load_vendor_data of generate_report.py. -/
def reportLoadVendorData (wb? : Option Workbook) : Except LoadError (List VendorRecord) :=
  match wb? with
  | none => .error .cannotOpen
  | some wb =>
    match reportLoadVendorFrames (reportRetainedSheets wb) with
    | .error e => .error e
    | .ok [] => .error .emptyConcat
    | .ok fs => .ok fs.flatten

/-
Categorized-Company Loader — src/eda_analysis.py load_categorized_companies
(lines 140-170); the dashboard and report variants (dashboard.py 97-108,
generate_report.py 85-96) run the same positional extraction.
-/

/-- One long-form categorized-company row; ctype is the bucket string
(National & Local, Local, or SGC Target). -/
structure CatRecord where
  industry : String
  company : String
  ctype : String
deriving DecidableEq

/-- df.iloc starting at row 2 of the fixed column i, then dropna, then
astype(str).str.strip(), then the loop filter dropping empty and the
literal text nan.  A scalar iloc column index at or past the column count
raises, which the model surfaces as a LoadError. -/
def extractBucket (s : Sheet) (i : Nat) (typ : String) : Except LoadError (List CatRecord) :=
  if i < s.ncols then
    .ok (((s.rows.drop 2).map (fun row => getCell row i)).filterMap fun c =>
      match c with
      | .empty => none
      | v =>
        let t := trimStr (cellToStr v)
        if t == "" || t == "nan" then none
        else some ⟨trimStr s.name, t, typ⟩)
  else .error (.columnOutOfRange s.name i)

/-- One sheet of the categorized workbook: the three buckets in source
order, each from its fixed column position. -/
def processCatSheet (s : Sheet) : Except LoadError (List CatRecord) :=
  match extractBucket s 1 "National & Local" with
  | .error e => .error e
  | .ok a =>
    match extractBucket s 2 "Local" with
    | .error e => .error e
    | .ok b =>
      match extractBucket s 3 "SGC Target" with
      | .error e => .error e
      | .ok c => .ok (a ++ b ++ c)

/-- The per-sheet loop of the categorized loader. -/
def catFrames : List Sheet → Except LoadError (List CatRecord)
  | [] => .ok []
  | s :: rest =>
    match processCatSheet s with
    | .error e => .error e
    | .ok f =>
      match catFrames rest with
      | .error e => .error e
      | .ok fs => .ok (f ++ fs)

/-- load_categorized_companies: every sheet is read (no skip-list);
pd.DataFrame of an empty record list succeeds, so only open failures and
column extraction can fail. -/
def loadCategorizedCompanies (wb? : Option Workbook) : Except LoadError (List CatRecord) :=
  match wb? with
  | none => .error .cannotOpen
  | some wb => catFrames wb

/-
Derived-Metric Aggregator — shared sub-policies and the views the claims
touch (eda_analysis.py bq1/bq6/bq7/bq8, dashboard.py vendor_with_sdo and
make_bq1/bq6/bq8).
-/

/-- The capping policy: Series.clip with upper bound 1.0. -/
def cap (x : ℚ) : ℚ := min x 1

/-- The SDO-eligible subset: dropna on the commitment, then keep strictly
positive values. -/
def sdoEligible (rows : List VendorRecord) : List VendorRecord :=
  rows.filter fun r =>
    match r.sdo with
    | some q => decide (0 < q)
    | none => false

/-- vendor_with_sdo of dashboard.py (also the sdo_df with SDO_Capped of
eda_analysis.py bq6): eligible rows paired with the capped commitment. -/
def vendorWithSdo (rows : List VendorRecord) : List (VendorRecord × ℚ) :=
  rows.filterMap fun r =>
    match r.sdo with
    | some q => if 0 < q then some (r, cap q) else none
    | none => none

/-- Insertion into a list sorted by the boolean comparator le, where
le a b reads a may sit before b.  With a non-strict comparator this is
the stable insertion step. -/
def insertLe {α : Type} (le : α → α → Bool) (a : α) : List α → List α
  | [] => [a]
  | b :: bs => if le a b then a :: b :: bs else b :: insertLe le a bs

/-- Insertion sort.  It models pandas sort_values on the sizes the claims
evaluate: numpy switches to an insertion sort below 16 elements, so the
concrete outputs computed here coincide with the source ones. -/
def sortBy {α : Type} (le : α → α → Bool) (l : List α) : List α :=
  l.foldr (insertLe le) []

/-- First-occurrence deduplication of strings (Series.nunique support,
groupby key collection). -/
def dedupStr (l : List String) : List String :=
  l.foldl (fun acc k => if acc.contains k then acc else acc ++ [k]) []

/-- First-occurrence deduplication of (company, category) keys. -/
def dedupKeys (l : List (String × String)) : List (String × String) :=
  l.foldl (fun acc k => if acc.contains k then acc else acc ++ [k]) []

/-- Strict code-point order on character lists (Python string less
than). -/
def ltChars : List Char → List Char → Bool
  | [], [] => false
  | [], _ :: _ => true
  | _ :: _, [] => false
  | a :: as, b :: bs => decide (a.toNat < b.toNat) || (a == b && ltChars as bs)

/-- Strict string order. -/
def strLt (a b : String) : Bool := ltChars a.toList b.toList

/-- Non-strict string order as a boolean, for sorted groupby keys. -/
def strLe (a b : String) : Bool := a == b || strLt a b

/-- Non-strict lexicographic order on (company, category) keys. -/
def keyLe (a b : String × String) : Bool :=
  strLt a.1 b.1 || (a.1 == b.1 && (a.2 == b.2 || strLt a.2 b.2))

/-- The sorted distinct values of a string column, the order pandas
groupby enumerates groups in. -/
def sortedCats (l : List String) : List String := sortBy strLe (dedupStr l)

/-- Fold maximum of a rational list; every call site has strictly
positive entries, so the base 0 never wins. -/
def maxQ (l : List ℚ) : ℚ := l.foldr max 0

/-- Mean of a rational list; every call site is nonempty. -/
def meanQ (l : List ℚ) : ℚ := l.foldr (· + ·) 0 / (l.length : ℚ)

/-
BQ1 — eda_analysis.py bq1_it_sector_top_sdo (lines 196-222).
-/

/-- The IT-sector restriction: categories ITE, ITS, ITT. -/
def itRows (rows : List VendorRecord) : List VendorRecord :=
  rows.filter fun r => ["ITE", "ITS", "ITT"].contains r.category

/-- it_with_sdo: IT rows, dropna, strictly positive commitment.  The EDA
view applies no cap here; the raw values feed the max. -/
def bq1Elig (rows : List VendorRecord) : List VendorRecord :=
  sdoEligible (itRows rows)

/-- One aggregated BQ1 row: the groupby key and the two aggregates. -/
structure Bq1Entry where
  company : String
  category : String
  sdoMax : ℚ
  contractCount : Nat
deriving DecidableEq

/-- The members of one (company, category) group. -/
def bq1Group (rows : List VendorRecord) (k : String × String) : List VendorRecord :=
  (bq1Elig rows).filter fun r => r.company == k.1 && r.category == k.2

/-- The aggregate row of one group: max raw commitment, distinct contract
codes. -/
def bq1Entry (rows : List VendorRecord) (k : String × String) : Bq1Entry :=
  { company := k.1
    category := k.2
    sdoMax := maxQ ((bq1Group rows k).filterMap (·.sdo))
    contractCount := (dedupStr ((bq1Group rows k).map (·.contractCode))).length }

/-- company_sdo before the value sort: one row per group, in the sorted
(company, category) key order pandas groupby produces. -/
def bq1Grouped (rows : List VendorRecord) : List Bq1Entry :=
  (sortBy keyLe (dedupKeys ((bq1Elig rows).map fun r => (r.company, r.category)))).map
    (bq1Entry rows)

/-- Comparator of the descending value sort; ties keep the grouped
order. -/
def bq1Ge (a b : Bq1Entry) : Bool := decide (b.sdoMax ≤ a.sdoMax)

/-- top15 of BQ1: sort descending by SDO_Max, take the first 15. -/
def bq1Top (rows : List VendorRecord) : List Bq1Entry :=
  (sortBy bq1Ge (bq1Grouped rows)).take 15

/-
BQ6 — eda_analysis.py bq6_sdo_distribution_outliers (lines 430-454) and
dashboard.py make_bq6_chart (lines 246-249).
-/

/-- Eligible-row count of one category. -/
def eligCount (rows : List VendorRecord) (c : String) : Nat :=
  ((sdoEligible rows).filter fun r => r.category == c).length

/-- Category-inclusion rule at threshold t: the distinct categories of
the eligible subset whose size reaches t. -/
def bq6ValidAt (rows : List VendorRecord) (t : Nat) : List String :=
  (sortedCats ((sdoEligible rows).map (·.category))).filter fun c =>
    decide (t ≤ eligCount rows c)

/-- valid_cats of the source: threshold 10. -/
def bq6ValidCats (rows : List VendorRecord) : List String := bq6ValidAt rows 10

/-- sdo_valid, the box-plot rows: capped eligible rows of the included
categories. -/
def bq6Rows (rows : List VendorRecord) : List (VendorRecord × ℚ) :=
  (vendorWithSdo rows).filter fun rc => (bq6ValidCats rows).contains rc.1.category

/-
BQ7 — eda_analysis.py bq7_sdo_coverage_rate (lines 481-496): the coverage
view counts non-null commitments over all rows of a category.
-/

/-- The rows one category counts as having SDO data: non-null commitment,
any value. -/
def bq7HasRows (rows : List VendorRecord) (c : String) : List VendorRecord :=
  rows.filter fun r => r.category == c && r.sdo.isSome

/-
BQ8 — eda_analysis.py bq8_vendor_count_vs_sdo (lines 530-551) and
dashboard.py make_bq8_chart (lines 277-299).
-/

/-- The EDA BQ8 base: dropna, strictly positive, and raw commitment at
most 1.0. -/
def bq8BaseE (rows : List VendorRecord) : List VendorRecord :=
  rows.filter fun r =>
    match r.sdo with
    | some q => decide (0 < q) && decide (q ≤ 1)
    | none => false

/-- One per-category BQ8 pair: distinct-vendor count and mean
commitment. -/
structure Bq8Entry where
  category : String
  vendorCount : Nat
  avgSdo : ℚ
deriving DecidableEq

/-- cat_stats of the EDA BQ8: one pair per category of the filtered
subset, in sorted category order, mean over the raw values. -/
def bq8PairsE (rows : List VendorRecord) : List Bq8Entry :=
  (sortedCats ((bq8BaseE rows).map (·.category))).map fun c =>
    let g := (bq8BaseE rows).filter fun r => r.category == c
    { category := c
      vendorCount := (dedupStr (g.map (·.company))).length
      avgSdo := meanQ (g.filterMap (·.sdo)) }

/-- The dashboard BQ8 base: vendor_with_sdo filtered to capped value at
most 1.0 (the filter reads the capped column). -/
def bq8BaseD (rows : List VendorRecord) : List (VendorRecord × ℚ) :=
  (vendorWithSdo rows).filter fun rc => decide (rc.2 ≤ 1)

/-- stats of the dashboard BQ8: per-category pairs over the capped
values. -/
def bq8PairsD (rows : List VendorRecord) : List Bq8Entry :=
  (sortedCats ((bq8BaseD rows).map (·.1.category))).map fun c =>
    let g := (bq8BaseD rows).filter fun rc => rc.1.category == c
    { category := c
      vendorCount := (dedupStr (g.map (·.1.company))).length
      avgSdo := meanQ (g.map (·.2)) }

/-- The centered sufficient statistics of the EDA correlation, guarded by
the len greater than 2 test of the source: the cross-product sum and the
two squared-deviation sums of the (vendor count, mean commitment) pairs.
Pearson r is cov divided by the square root of varX times varY; only the
rational statistics and the presence of the result are modelled. -/
def bq8CorrE (rows : List VendorRecord) : Option (ℚ × ℚ × ℚ) :=
  let ps := bq8PairsE rows
  if 2 < ps.length then
    let xs := ps.map fun e => (e.vendorCount : ℚ)
    let ys := ps.map (·.avgSdo)
    let xbar := meanQ xs
    let ybar := meanQ ys
    some ((xs.zip ys).foldr (fun p a => a + (p.1 - xbar) * (p.2 - ybar)) 0,
          xs.foldr (fun x a => a + (x - xbar) ^ 2) 0,
          ys.foldr (fun y a => a + (y - ybar) ^ 2) 0)
  else none

/-- The dashboard trendline: scipy linregress slope and intercept over
the pairs, guarded by the same len greater than 2 test. -/
def bq8TrendD (rows : List VendorRecord) : Option (ℚ × ℚ) :=
  let ps := bq8PairsD rows
  if 2 < ps.length then
    let xs := ps.map fun e => (e.vendorCount : ℚ)
    let ys := ps.map (·.avgSdo)
    let xbar := meanQ xs
    let ybar := meanQ ys
    let cov := (xs.zip ys).foldr (fun p a => a + (p.1 - xbar) * (p.2 - ybar)) 0
    let varX := xs.foldr (fun x a => a + (x - xbar) ^ 2) 0
    let slope := cov / varX
    some (slope, ybar - slope * xbar)
  else none

/-
Sorting infrastructure lemmas.
-/

/-- Membership through insertion. -/
theorem mem_insertLe {α : Type} (le : α → α → Bool) (a : α) :
    ∀ (l : List α) (x : α), x ∈ insertLe le a l ↔ x = a ∨ x ∈ l := by
  intro l
  induction l with
  | nil => intro x; simp [insertLe]
  | cons b bs ih =>
    intro x
    by_cases h : le a b
    · simp only [insertLe, if_pos h, List.mem_cons]
    · simp only [insertLe, if_neg h, List.mem_cons, ih]
      tauto

/-- Insertion preserves pairwise order when the comparator decides the
order relation. -/
theorem pairwise_insertLe {α : Type} {R : α → α → Prop} {le : α → α → Bool}
    (h1 : ∀ x y, le x y = true → R x y) (h2 : ∀ x y, le x y = false → R y x)
    (ht : ∀ x y z, R x y → R y z → R x z) (a : α) :
    ∀ l : List α, l.Pairwise R → (insertLe le a l).Pairwise R := by
  intro l
  induction l with
  | nil => intro _; simp [insertLe]
  | cons b bs ih =>
    intro hp
    rw [List.pairwise_cons] at hp
    obtain ⟨hb, hbs⟩ := hp
    by_cases h : le a b
    · have hab : R a b := h1 a b h
      simp only [insertLe, if_pos h]
      rw [List.pairwise_cons]
      refine ⟨?_, by rw [List.pairwise_cons]; exact ⟨hb, hbs⟩⟩
      intro x hx
      rcases List.mem_cons.mp hx with hxb | hxbs
      · exact hxb ▸ hab
      · exact ht a b x hab (hb x hxbs)
    · have hf : le a b = false := by simpa using h
      simp only [insertLe, if_neg h]
      rw [List.pairwise_cons]
      constructor
      · intro x hx
        rcases (mem_insertLe le a bs x).mp hx with hxa | hxbs
        · exact hxa ▸ h2 a b hf
        · exact hb x hxbs
      · exact ih hbs

/-- The insertion sort is pairwise-ordered under the decided relation. -/
theorem pairwise_sortBy {α : Type} {R : α → α → Prop} {le : α → α → Bool}
    (h1 : ∀ x y, le x y = true → R x y) (h2 : ∀ x y, le x y = false → R y x)
    (ht : ∀ x y z, R x y → R y z → R x z) :
    ∀ l : List α, (sortBy le l).Pairwise R := by
  intro l
  induction l with
  | nil => simp [sortBy]
  | cons a as ih => exact pairwise_insertLe h1 h2 ht a (sortBy le as) ih

/-
Claim theorems.
-/

/-- C7: the capping operation is idempotent, is the identity at or below
1.0 and collapses everything above 1.0 to exactly 1.0. -/
theorem claim7_cap_idempotent_and_bounds :
    ∀ x : ℚ, cap (cap x) = cap x ∧ (x ≤ 1 → cap x = x) ∧ (1 < x → cap x = 1) := by
  intro x
  refine ⟨?_, ?_, ?_⟩
  · unfold cap
    rcases le_total x 1 with h | h
    · rw [min_eq_left h, min_eq_left h]
    · rw [min_eq_right h, min_eq_right le_rfl]
  · intro h; unfold cap; exact min_eq_left h
  · intro h; unfold cap; exact min_eq_right h.le

/-- C7 witness: the bounds evaluated at one half and at two. -/
theorem claim7_witness : cap (1/2 : ℚ) = 1/2 ∧ cap (2 : ℚ) = 1 :=
  ⟨(claim7_cap_idempotent_and_bounds (1/2)).2.1 (by norm_num),
   (claim7_cap_idempotent_and_bounds 2).2.2 (by norm_num)⟩

/-- C2 (amended): the EDA BQ1 view returns at most 15 rows and is sorted
descending by the ranking metric; the metric is the maximum raw
(uncapped) commitment per (company, category) group, and tie order
follows the sorted group-key order the groupby produces, not original
row order (see the counterexample). -/
theorem claim2_bq1_top_bounded_sorted :
    ∀ rows : List VendorRecord,
      (bq1Top rows).length ≤ 15 ∧
      (bq1Top rows).Pairwise (fun a b => b.sdoMax ≤ a.sdoMax) := by
  intro rows
  constructor
  · unfold bq1Top
    rw [List.length_take]
    exact Nat.min_le_left _ _
  · unfold bq1Top
    refine List.Pairwise.sublist (List.take_sublist _ _) ?_
    refine pairwise_sortBy ?_ ?_ ?_ _
    · intro x y h
      exact of_decide_eq_true h
    · intro x y h
      exact (lt_of_not_le (of_decide_eq_false h)).le
    · intro x y z hxy hyz
      exact le_trans hyz hxy

/-- The C2 counterexample workbook: one IT sheet with two vendors, row
order B then A, both with raw commitment 2.0 (that is, 200 percent). -/
def wbC2 : Workbook :=
  [⟨"ITE", 7,
    [[.str "C1", .str "N1", .str "B", .empty, .empty, .empty, .num 2],
     [.str "C2", .str "N2", .str "A", .empty, .empty, .empty, .num 2]]⟩]

/-- C2 counterexample: on wbC2 the claim predicts groups of capped
values (max capped value 1.0 per group) with ties broken by original row
order (B before A); the source view instead reports the raw uncapped
maximum 2.0, and the (company, category) groupby emits A before B, so
the tied rows come out in group-key order, not original row order. -/
theorem claim2_counterexample :
    (loadVendorData (some wbC2)).map bq1Top =
      .ok [⟨"A", "ITE", 2, 1⟩, ⟨"B", "ITE", 2, 1⟩] := by
  with_unfolding_all rfl

/-- C6: a category enters the box-plot view only with at least 10
SDO-eligible rows; the inclusion rule at a threshold is antitone in the
threshold; and every row the view plots belongs to a category with at
least 10 eligible rows. -/
theorem claim6_threshold_ten_and_monotone :
    ∀ (rows : List VendorRecord) (t1 t2 : Nat) (c : String),
      (c ∈ bq6ValidCats rows → 10 ≤ eligCount rows c) ∧
      (t1 ≤ t2 → c ∈ bq6ValidAt rows t2 → c ∈ bq6ValidAt rows t1) ∧
      (∀ rc ∈ bq6Rows rows, 10 ≤ eligCount rows rc.1.category) := by
  intro rows t1 t2 c
  have hvalid : ∀ (t : Nat) (d : String), d ∈ bq6ValidAt rows t → t ≤ eligCount rows d := by
    intro t d hd
    unfold bq6ValidAt at hd
    rw [List.mem_filter] at hd
    exact of_decide_eq_true hd.2
  refine ⟨fun hc => hvalid 10 c hc, ?_, ?_⟩
  · intro ht hc
    unfold bq6ValidAt at hc ⊢
    rw [List.mem_filter] at hc ⊢
    exact ⟨hc.1, decide_eq_true (le_trans ht (of_decide_eq_true hc.2))⟩
  · intro rc hrc
    unfold bq6Rows at hrc
    rw [List.mem_filter] at hrc
    have hmem : rc.1.category ∈ bq6ValidCats rows :=
      List.mem_of_elem_eq_true hrc.2
    exact hvalid 10 rc.1.category hmem

/-- The C6 witness row and table: twelve eligible IT rows. -/
def w6Rows : List VendorRecord :=
  List.replicate 12 ⟨"C", "N", "V", .empty, .empty, .empty, some 1, "ITE"⟩

/-- C6 witness: the threshold bound and the monotone inclusion evaluated
on a concrete table with twelve eligible rows and thresholds three and
five. -/
theorem claim6_witness :
    10 ≤ eligCount w6Rows "ITE" ∧ "ITE" ∈ bq6ValidAt w6Rows 3 :=
  ⟨(claim6_threshold_ten_and_monotone w6Rows 3 5 "ITE").1 (by decide),
   (claim6_threshold_ten_and_monotone w6Rows 3 5 "ITE").2.1 (by decide) (by decide)⟩

/-- C1: every loaded commitment is either none or some finite rational
(the coercion is a total function, so no exception can propagate), and
the three literal inputs of the spec coerce as stated. -/
theorem claim1_sdo_none_or_finite :
    (∀ (wb? : Option Workbook) (rows : List VendorRecord),
        loadVendorData wb? = .ok rows → ∀ r ∈ rows, r.sdo = none ∨ ∃ q : ℚ, r.sdo = some q) ∧
      toNumericStr "0.25" = some (1/4) ∧
      toNumericStr "abc" = none ∧
      toNumericStr "" = none := by
  refine ⟨?_, by with_unfolding_all rfl, rfl, rfl⟩
  intro wb? rows _ r _
  cases h : r.sdo with
  | none => exact Or.inl rfl
  | some q => exact Or.inr ⟨q, rfl⟩

/-- Every record a vendor sheet yields takes its company from a raw cell
text that matched no boilerplate keyword; the stored value is the
cleaned form of that raw text. -/
theorem processVendorSheet_company (s : Sheet) (recs : List VendorRecord)
    (h : processVendorSheet s = .ok recs) :
    ∀ r ∈ recs, ∃ src : String, r.company = cleanField src ∧ companyMatchesKw src = false := by
  intro r hr
  unfold processVendorSheet at h
  by_cases hc : s.ncols < 7
  · rw [if_pos hc] at h; simp at h
  · rw [if_neg hc] at h
    injection h with h
    subst h
    rcases List.mem_map.mp hr with ⟨row, hrow, rfl⟩
    have hk := (List.mem_filter.mp hrow).2
    refine ⟨cellToStr (getCell row 2), rfl, ?_⟩
    unfold keepRowE at hk
    simpa using hk

/-- The per-sheet loop preserves the raw-company property across the
concatenation. -/
theorem loadVendorFrames_company (ss : List Sheet) (fs : List (List VendorRecord))
    (h : loadVendorFrames ss = .ok fs) :
    ∀ r ∈ fs.flatten, ∃ src : String, r.company = cleanField src ∧ companyMatchesKw src = false := by
  induction ss generalizing fs with
  | nil =>
    unfold loadVendorFrames at h
    injection h with h
    subst h
    intro r hr
    simp at hr
  | cons s rest ih =>
    unfold loadVendorFrames at h
    cases hp : processVendorSheet s with
    | error e => rw [hp] at h; simp at h
    | ok f =>
      rw [hp] at h
      cases hrest : loadVendorFrames rest with
      | error e => rw [hrest] at h; simp at h
      | ok fs2 =>
        rw [hrest] at h
        injection h with h
        subst h
        intro r hr
        rw [List.flatten_cons] at hr
        rcases List.mem_append.mp hr with hl | hr2
        · exact processVendorSheet_company s f hp r hl
        · exact ih fs2 hrest r hr2

/-- C3 (amended): the boilerplate exclusion is applied to the raw
company cell text, before the newline collapse and trim; every record of
the final table has a company equal to the cleaned form of a raw text
that matched no keyword.  A company whose keyword match only forms once
a newline is collapsed to a space survives (see the counterexample), so
the claim as stated fails on the final cleaned values. -/
theorem claim3_company_filter_preclean :
    ∀ (wb? : Option Workbook) (rows : List VendorRecord),
      loadVendorData wb? = .ok rows → ∀ r ∈ rows,
      ∃ src : String, r.company = cleanField src ∧ companyMatchesKw src = false := by
  intro wb? rows h r hr
  cases wb? with
  | none => simp [loadVendorData] at h
  | some wb =>
    simp only [loadVendorData] at h
    cases hf : loadVendorFrames (retainedSheets wb) with
    | error e => rw [hf] at h; simp at h
    | ok fs =>
      rw [hf] at h
      cases fs with
      | nil => simp at h
      | cons f fs2 =>
        injection h with h
        subst h
        exact loadVendorFrames_company _ _ hf r hr

/-- The C3 witness workbook: one ordinary vendor row. -/
def wbW3 : Workbook :=
  [⟨"ITE", 7, [[.str "C1", .str "Ann", .str "Acme Co", .empty, .empty, .empty, .num 1]]⟩]

/-- The record wbW3 loads to. -/
def recW3 : VendorRecord :=
  ⟨"C1", "Ann", "Acme Co", .empty, .empty, .empty, some 1, "ITE"⟩

/-- C3 witness: the amended property evaluated on the record loaded from
wbW3. -/
theorem claim3_witness :
    ∃ src : String, recW3.company = cleanField src ∧ companyMatchesKw src = false :=
  claim3_company_filter_preclean (some wbW3) [recW3] (by rfl) recW3 (by simp)

/-- The C3 counterexample workbook: the company cell holds a newline
between Master and Contract, so the raw text matches no keyword. -/
def wbC3 : Workbook :=
  [⟨"ITE", 7,
    [[.str "C1", .str "N", .str "Master\nContract Co", .empty, .empty, .empty, .num 1]]⟩]

/-- C3 counterexample: the loaded table keeps a record whose final
company value, Master Contract Co, contains the boilerplate phrase
Master Contract case-insensitively — the filter ran before the newline
collapse, so the claim that no final record matches any phrase fails. -/
theorem claim3_counterexample :
    (loadVendorData (some wbC3)).map
        (fun rows => rows.any fun r => companyMatchesKw r.company) = .ok true := by
  rfl

/-- The per-sheet loop fails exactly when some sheet on the list has
fewer than 7 columns. -/
theorem loadVendorFrames_err_iff (ss : List Sheet) :
    isLoadErr (loadVendorFrames ss) = true ↔ ∃ s ∈ ss, s.ncols < 7 := by
  induction ss with
  | nil => simp [loadVendorFrames, isLoadErr]
  | cons s rest ih =>
    unfold loadVendorFrames
    by_cases hc : s.ncols < 7
    · have hp : processVendorSheet s = .error (.badSheet s.name) := by
        unfold processVendorSheet; rw [if_pos hc]
      rw [hp]
      constructor
      · intro _
        exact ⟨s, List.mem_cons_self s rest, hc⟩
      · intro _
        rfl
    · have hp : processVendorSheet s =
          .ok ((s.rows.filter keepRowE).map (mkVendorRecord (trimStr s.name))) := by
        unfold processVendorSheet; rw [if_neg hc]
      rw [hp]
      cases hrest : loadVendorFrames rest with
      | error e =>
        rw [hrest] at ih
        constructor
        · intro _
          rcases ih.mp rfl with ⟨s2, hs2, h2⟩
          exact ⟨s2, List.mem_cons_of_mem s hs2, h2⟩
        · intro _
          rfl
      | ok fs =>
        rw [hrest] at ih
        have hno : ¬∃ s2 ∈ rest, s2.ncols < 7 := by
          intro hex
          have h3 := ih.mpr hex
          simp [isLoadErr] at h3
        constructor
        · intro habs
          simp [isLoadErr] at habs
        · rintro ⟨s2, hs2, h2⟩
          rcases List.mem_cons.mp hs2 with rfl | hs2r
          · exact absurd h2 hc
          · exact absurd ⟨s2, hs2r, h2⟩ hno

/-- A successful per-sheet loop yields one frame per sheet. -/
theorem loadVendorFrames_ok_length (ss : List Sheet) (fs : List (List VendorRecord))
    (h : loadVendorFrames ss = .ok fs) : fs.length = ss.length := by
  induction ss generalizing fs with
  | nil =>
    unfold loadVendorFrames at h
    injection h with h
    subst h
    rfl
  | cons s rest ih =>
    unfold loadVendorFrames at h
    cases hp : processVendorSheet s with
    | error e => rw [hp] at h; simp at h
    | ok f =>
      rw [hp] at h
      cases hrest : loadVendorFrames rest with
      | error e => rw [hrest] at h; simp at h
      | ok fs2 =>
        rw [hrest] at h
        injection h with h
        subst h
        simp [ih fs2 hrest]

/-- C4 (amended): the vendor load fails exactly when the workbook cannot
be opened, some retained sheet has fewer than 7 columns, or no sheet at
all is retained (every sheet skip-listed), in which case pandas concat
of zero frames fails.  The claim as stated omits the third case (see the
counterexample). -/
theorem claim4_load_error_iff :
    ∀ wb? : Option Workbook,
      isLoadErr (loadVendorData wb?) = true ↔
        (wb? = none ∨ ∃ wb, wb? = some wb ∧
          (retainedSheets wb = [] ∨ ∃ s ∈ retainedSheets wb, s.ncols < 7)) := by
  intro wb?
  cases wb? with
  | none => simp [loadVendorData, isLoadErr]
  | some wb =>
    simp only [loadVendorData]
    cases hf : loadVendorFrames (retainedSheets wb) with
    | error e =>
      have hex : ∃ s ∈ retainedSheets wb, s.ncols < 7 := by
        have h2 := loadVendorFrames_err_iff (retainedSheets wb)
        rw [hf] at h2
        exact h2.mp rfl
      simp only [isLoadErr]
      constructor
      · intro _
        exact Or.inr ⟨wb, rfl, Or.inr hex⟩
      · intro _
        trivial
    | ok fs =>
      cases fs with
      | nil =>
        have hnil : retainedSheets wb = [] := by
          have hl := loadVendorFrames_ok_length _ _ hf
          exact List.length_eq_zero.mp hl.symm
        simp only [isLoadErr]
        constructor
        · intro _
          exact Or.inr ⟨wb, rfl, Or.inl hnil⟩
        · intro _
          trivial
      | cons f fs2 =>
        have hnoerr : ¬∃ s ∈ retainedSheets wb, s.ncols < 7 := by
          have h2 := loadVendorFrames_err_iff (retainedSheets wb)
          rw [hf] at h2
          intro hex
          simpa [isLoadErr] using h2.mpr hex
        have hne : retainedSheets wb ≠ [] := by
          intro habs
          have hl := loadVendorFrames_ok_length _ _ hf
          rw [habs] at hl
          simp at hl
        simp only [isLoadErr]
        constructor
        · intro habs
          simp at habs
        · rintro (habs | ⟨wb2, hwb2, hcase⟩)
          · simp at habs
          · injection hwb2 with hwb2
            subst hwb2
            rcases hcase with hnil2 | hex
            · exact absurd hnil2 hne
            · exact absurd hex hnoerr

/-- C4 counterexample: a workbook that opens and whose only sheet is the
skip-listed Abbreviations tab (with a full 7 columns, so no retained
sheet is short) — the claim predicts success, but the load fails at the
concat of zero frames. -/
theorem claim4_counterexample :
    loadVendorData (some [⟨"Abbreviations ", 7, []⟩]) = .error .emptyConcat := by
  rfl

/-- A categorized sheet with fewer than 4 columns always fails: its
first missing bucket column index is out of range for the scalar iloc
column access. -/
theorem processCatSheet_err (s : Sheet) (h : s.ncols < 4) :
    isLoadErr (processCatSheet s) = true := by
  have h4 : s.ncols = 0 ∨ s.ncols = 1 ∨ s.ncols = 2 ∨ s.ncols = 3 := by omega
  unfold processCatSheet extractBucket
  rcases h4 with h0 | h0 | h0 | h0 <;> simp [h0, isLoadErr]

/-- The categorized per-sheet loop fails whenever some sheet has fewer
than 4 columns. -/
theorem catFrames_err (wb : List Sheet) :
    ∀ s ∈ wb, s.ncols < 4 → isLoadErr (catFrames wb) = true := by
  induction wb with
  | nil => intro s hs; cases hs
  | cons a rest ih =>
    intro s hs h
    unfold catFrames
    rcases List.mem_cons.mp hs with rfl | hs2
    · cases hp : processCatSheet s with
      | error e => simp [isLoadErr]
      | ok f =>
        have := processCatSheet_err s h
        rw [hp] at this
        simp [isLoadErr] at this
    · cases hp : processCatSheet a with
      | error e => simp [isLoadErr]
      | ok f =>
        have hrec := ih s hs2 h
        cases hr : catFrames rest with
        | error e => simp [isLoadErr]
        | ok fs =>
          rw [hr] at hrec
          simp [isLoadErr] at hrec

/-- C5 (amended): a categorized-company workbook containing a sheet with
fewer than 4 columns makes load_categorized_companies fail with an
out-of-range column access; the extraction does not silently yield fewer
buckets (see the counterexample). -/
theorem claim5_short_sheet_errors :
    ∀ (wb : Workbook) (s : Sheet), s ∈ wb → s.ncols < 4 →
      isLoadErr (loadCategorizedCompanies (some wb)) = true := by
  intro wb s hs h
  simp only [loadCategorizedCompanies]
  exact catFrames_err wb s hs h

/-- The C5 workbook: one industry sheet with only 3 columns (two header
rows and one data row). -/
def wbC5 : Workbook :=
  [⟨"Finance", 3,
    [[.str "h", .str "h", .str "h"],
     [.str "h", .str "h", .str "h"],
     [.str "A", .str "X", .str "Y"]]⟩]

/-- C5 witness: the amended failure property evaluated on wbC5. -/
theorem claim5_witness : isLoadErr (loadCategorizedCompanies (some wbC5)) = true :=
  claim5_short_sheet_errors wbC5 ⟨"Finance", 3,
    [[.str "h", .str "h", .str "h"],
     [.str "h", .str "h", .str "h"],
     [.str "A", .str "X", .str "Y"]]⟩ (by simp [wbC5]) (by decide)

/-- C5 counterexample: on the 3-column sheet the claim predicts a
silent load that only misses the SGC Target bucket; the source instead
raises when the scalar column index 3 is out of bounds, surfaced here as
the column-out-of-range load error. -/
theorem claim5_counterexample :
    loadCategorizedCompanies (some wbC5) = .error (.columnOutOfRange "Finance" 3) := by
  rfl

/-- Membership description of vendor_with_sdo: each member is an
eligible source row paired with its capped commitment. -/
theorem mem_vendorWithSdo (rows : List VendorRecord) (rc : VendorRecord × ℚ)
    (h : rc ∈ vendorWithSdo rows) :
    ∃ q : ℚ, rc.1.sdo = some q ∧ 0 < q ∧ rc.2 = cap q := by
  unfold vendorWithSdo at h
  rcases List.mem_filterMap.mp h with ⟨r, _, hmk⟩
  cases hs : r.sdo with
  | none => rw [hs] at hmk; simp at hmk
  | some q =>
    rw [hs] at hmk
    dsimp only at hmk
    by_cases hq : 0 < q
    · rw [if_pos hq] at hmk
      injection hmk with hmk
      subst hmk
      exact ⟨q, hs, hq, rfl⟩
    · rw [if_neg hq] at hmk
      simp at hmk

/-- C8 (amended): the EDA BQ8 base excludes every row whose raw
commitment exceeds 1.0, while the dashboard BQ8 filter reads the capped
column and is vacuous — its base is all of vendor_with_sdo, so an
above-1.0 row is included there with its value capped (see the
counterexample); such rows are still counted by the coverage view and
retained, capped to 1.0, in the outlier-view base. -/
theorem claim8_above_one_handling :
    ∀ rows : List VendorRecord,
      (∀ r ∈ bq8BaseE rows, ∀ q : ℚ, r.sdo = some q → q ≤ 1) ∧
      bq8BaseD rows = vendorWithSdo rows ∧
      (∀ r ∈ rows, ∀ q : ℚ, r.sdo = some q → 1 < q →
        r ∈ bq7HasRows rows r.category ∧ (r, (1 : ℚ)) ∈ vendorWithSdo rows) := by
  intro rows
  refine ⟨?_, ?_, ?_⟩
  · intro r hr q hq
    have hp := (List.mem_filter.mp hr).2
    rw [hq] at hp
    simp at hp
    exact hp.2
  · unfold bq8BaseD
    apply List.filter_eq_self.mpr
    intro rc hrc
    rcases mem_vendorWithSdo rows rc hrc with ⟨q, _, _, hcap⟩
    rw [hcap]
    exact decide_eq_true (min_le_right q 1)
  · intro r hr q hq h1
    constructor
    · unfold bq7HasRows
      apply List.mem_filter.mpr
      refine ⟨hr, ?_⟩
      simp [hq]
    · have h0 : (0 : ℚ) < q := lt_trans zero_lt_one h1
      have hcap : cap q = 1 := min_eq_right h1.le
      have hmem : (r, cap q) ∈ vendorWithSdo rows := by
        unfold vendorWithSdo
        apply List.mem_filterMap.mpr
        exact ⟨r, hr, by simp [hq, h0]⟩
      rwa [hcap] at hmem

/-- The C8 row: an IT vendor whose raw commitment is 2.0, that is, 200
percent. -/
def c8row : VendorRecord := ⟨"C1", "N", "Acme", .empty, .empty, .empty, some 2, "ITE"⟩

/-- C8 witness: the coverage and capped-retention conclusions evaluated
on the concrete above-1.0 row. -/
theorem claim8_witness :
    c8row ∈ bq7HasRows [c8row] c8row.category ∧ (c8row, (1 : ℚ)) ∈ vendorWithSdo [c8row] :=
  (claim8_above_one_handling [c8row]).2.2 c8row (by simp) 2 rfl (by norm_num)

/-- C8 counterexample: the claim says rows with commitment above 1.0
are excluded from the per-category pairs of the correlation/scatter
view; the dashboard variant instead keeps the 200 percent row — its
filter reads the capped column, so the pair (ITE, 1 vendor, mean 1.0)
appears where the claim predicts no pair at all. -/
theorem claim8_counterexample :
    bq8PairsD [c8row] = [⟨"ITE", 1, 1⟩] ∧ c8row.sdo = some 2 :=
  ⟨by with_unfolding_all rfl, rfl⟩

/-- C9: both correlation computations (the EDA Pearson statistics and
the dashboard regression trend) are present exactly when at least 3
per-category pairs qualify; below that the optional result is silently
absent while the pairs themselves are still produced. -/
theorem claim9_corr_present_iff :
    ∀ rows : List VendorRecord,
      ((bq8CorrE rows).isSome = true ↔ 3 ≤ (bq8PairsE rows).length) ∧
      ((bq8TrendD rows).isSome = true ↔ 3 ≤ (bq8PairsD rows).length) := by
  intro rows
  constructor
  · by_cases h : 2 < (bq8PairsE rows).length
    · simp [bq8CorrE, h]
      omega
    · simp [bq8CorrE, h]
      omega
  · by_cases h : 2 < (bq8PairsD rows).length
    · simp [bq8TrendD, h]
      omega
    · simp [bq8TrendD, h]
      omega

/-- The report per-sheet transform coincides definitionally with the EDA
one (same skip test, mask, coercion and cleanup). -/
theorem reportProcess_eq (s : Sheet) : reportProcessVendorSheet s = processVendorSheet s := rfl

/-- The report per-sheet loop coincides with the EDA one. -/
theorem reportFrames_eq (ss : List Sheet) :
    reportLoadVendorFrames ss = loadVendorFrames ss := by
  induction ss with
  | nil => rfl
  | cons s rest ih =>
    unfold reportLoadVendorFrames loadVendorFrames
    rw [reportProcess_eq, ih]

/-- Erasing the label column from the dashboard per-sheet transform
gives the EDA one. -/
theorem dashProcess_base (s : Sheet) :
    (dashProcessVendorSheet s).map (List.map DVendorRecord.base) = processVendorSheet s := by
  unfold dashProcessVendorSheet processVendorSheet
  by_cases h : s.ncols < 7
  · rw [if_pos h, if_pos h]
    rfl
  · rw [if_neg h, if_neg h]
    show Except.ok _ = Except.ok _
    congr 1
    rw [List.map_map]
    rfl

/-- Erasing the label column from the dashboard per-sheet loop gives the
EDA one. -/
theorem dashFrames_base (ss : List Sheet) :
    (dashLoadVendorFrames ss).map (List.map (List.map DVendorRecord.base)) = loadVendorFrames ss := by
  induction ss with
  | nil => rfl
  | cons s rest ih =>
    unfold dashLoadVendorFrames loadVendorFrames
    cases hp : dashProcessVendorSheet s with
    | error e =>
      have h2 : processVendorSheet s = .error e := by
        rw [← dashProcess_base, hp]; rfl
      rw [h2]
      rfl
    | ok f =>
      have h2 : processVendorSheet s = .ok (f.map DVendorRecord.base) := by
        rw [← dashProcess_base, hp]; rfl
      rw [h2]
      cases hr : dashLoadVendorFrames rest with
      | error e =>
        have h3 : loadVendorFrames rest = .error e := by
          rw [← ih, hr]; rfl
        rw [h3]
        rfl
      | ok fs =>
        have h3 : loadVendorFrames rest = .ok (fs.map (List.map DVendorRecord.base)) := by
          rw [← ih, hr]; rfl
        rw [h3]
        rfl

/-- C10: the three vendor-loader variants are equivalent on every
workbook — the report loader equals the EDA loader outright, and the
dashboard loader equals it after erasing the derived label column; all
eight common fields, the row order and the failure behavior agree. -/
theorem claim10_loaders_equivalent :
    ∀ wb? : Option Workbook,
      reportLoadVendorData wb? = loadVendorData wb? ∧
      (dashLoadVendorData wb?).map (List.map DVendorRecord.base) = loadVendorData wb? := by
  intro wb?
  constructor
  · cases wb? with
    | none => rfl
    | some wb =>
      simp only [reportLoadVendorData, loadVendorData]
      have h0 : reportRetainedSheets wb = retainedSheets wb := rfl
      rw [h0, reportFrames_eq]
  · cases wb? with
    | none => rfl
    | some wb =>
      simp only [dashLoadVendorData, loadVendorData]
      have h0 : dashRetainedSheets wb = retainedSheets wb := rfl
      rw [h0]
      cases hr : dashLoadVendorFrames (retainedSheets wb) with
      | error e =>
        have h3 : loadVendorFrames (retainedSheets wb) = .error e := by
          rw [← dashFrames_base, hr]; rfl
        rw [h3]
        rfl
      | ok fs =>
        cases fs with
        | nil =>
          have h3 : loadVendorFrames (retainedSheets wb) = .ok [] := by
            rw [← dashFrames_base, hr]; rfl
          rw [h3]
          rfl
        | cons f fs2 =>
          have h3 : loadVendorFrames (retainedSheets wb) =
              .ok (f.map DVendorRecord.base :: fs2.map (List.map DVendorRecord.base)) := by
            rw [← dashFrames_base, hr]; rfl
          rw [h3]
          show Except.ok _ = Except.ok _
          congr 1
          simp [List.map_flatten]
